import Mathlib

/-!
Shallow embedding of the in-process state engine of `chroma-mcp`
(src/chroma_mcp/cache.py, entity_mapper.py, swarm.py) and proofs about it.

Modelling conventions:
* Machine floats are modelled exactly: the cache observes time only through
  ordered comparisons, so its `time.time()` values and TTLs are modelled as
  integers `ℤ`; the swarm tracker divides elapsed time by 60, so its times
  and strengths are rationals `ℚ`. The current wall-clock time is passed
  explicitly to each operation (`now`), matching the spec's "simulated time".
* Python `dict`/`OrderedDict` objects are modelled as association lists
  `List (String × β)` that keep insertion order; assignment to an existing
  key updates in place, assignment to a fresh key appends.
* Python `defaultdict` containers keyed by strings are modelled as total
  functions with default value, since the claims only observe lookups.
* `hashlib.sha256(...).hexdigest()` (and its `[:16]` truncation in swarm.py)
  is a fixed pure function of its input string; it is modelled as an
  abstract parameter `hash : String → String`, so every theorem holds for
  the real digest function in particular.
-/

/-- JSON values, the payloads fed to `json.dumps` in `cache.py`.
Object fields keep the source ordering of the originating Python dict. -/
inductive Json where
  | null : Json
  | bool : Bool → Json
  | num : Int → Json
  | str : String → Json
  | arr : List Json → Json
  | obj : List (String × Json) → Json

/-- Escape of a single character inside a JSON string literal. -/
def escapeChar (c : Char) : String :=
  if c = '"' then "\\\"" else if c = '\\' then "\\\\" else String.singleton c

/-- Escape of a JSON string body. -/
def escapeString (s : String) : String :=
  String.join (s.toList.map escapeChar)

/-- Quoted JSON string literal. -/
def quoteString (s : String) : String :=
  "\"" ++ escapeString s ++ "\""

/-- Comma-space separated join, as `json.dumps` uses by default. -/
def joinComma : List String → String
  | [] => ""
  | [s] => s
  | s :: t => s ++ ", " ++ joinComma t

/-- Sorting of object fields by key, the effect of `sort_keys=True`
in `json.dumps` (Python sorts the items by key before serializing). -/
def sortFields (l : List (String × Json)) : List (String × Json) :=
  List.insertionSort (fun a b => a.1 ≤ b.1) l

mutual

/-- Recursive key-sorting normalisation: `json.dumps(data, sort_keys=True)`
serialises every object's fields in ascending key order at every depth;
`canon` performs that reordering, so that plain serialisation of `canon d`
is the string `json.dumps(d, sort_keys=True)` produces. -/
def Json.canon : Json → Json
  | .null => .null
  | .bool b => .bool b
  | .num n => .num n
  | .str s => .str s
  | .arr l => .arr (Json.canonList l)
  | .obj l => .obj (sortFields (Json.canonFields l))

/-- Elementwise `canon` on array elements. -/
def Json.canonList : List Json → List Json
  | [] => []
  | v :: t => Json.canon v :: Json.canonList t

/-- Elementwise `canon` on object field values. -/
def Json.canonFields : List (String × Json) → List (String × Json)
  | [] => []
  | (k, v) :: t => (k, Json.canon v) :: Json.canonFields t

end

mutual

/-- Plain JSON serialisation in field order (composed with `canon` it is
`json.dumps(·, sort_keys=True)`). -/
def Json.dumps : Json → String
  | .null => "null"
  | .bool b => if b then "true" else "false"
  | .num n => toString n
  | .str s => quoteString s
  | .arr l => "[" ++ joinComma (Json.dumpsList l) ++ "]"
  | .obj l => "\x7b" ++ joinComma (Json.dumpsFields l) ++ "\x7d"

/-- Serialisations of array elements. -/
def Json.dumpsList : List Json → List String
  | [] => []
  | v :: t => Json.dumps v :: Json.dumpsList t

/-- Serialisations of object fields (`"key": value`). -/
def Json.dumpsFields : List (String × Json) → List String
  | [] => []
  | (k, v) :: t => (quoteString k ++ ": " ++ Json.dumps v) :: Json.dumpsFields t

end

/-! ### Ordered-dictionary primitives

`OrderedDict` (and plain `dict`, which is insertion-ordered in Python)
modelled over association lists. -/

/-- Dictionary lookup, `d[k]` / `d.get(k)`: first binding of the key. -/
def lookupKey (k : String) : List (String × β) → Option β
  | [] => none
  | (k', v) :: t => if k' = k then some v else lookupKey k t

/-- Dictionary deletion `del d[k]`: drops the bindings of `k`, keeping
the order of the others. -/
def eraseKey (k : String) (l : List (String × β)) : List (String × β) :=
  l.filter (fun p => decide (p.1 ≠ k))

/-- Dictionary assignment `d[k] = v`: updates the binding in place if the
key is present (position preserved), otherwise appends at the end. -/
def setKey (k : String) (v : β) : List (String × β) → List (String × β)
  | [] => [(k, v)]
  | (k', v') :: t => if k' = k then (k, v) :: t else (k', v') :: setKey k v t

/-- The `OrderedDict.move_to_end(k)` operation: moves the binding of `k`
to the last position. (Python raises on a missing key; the cache only
calls this right after assigning `k`, so that case is modelled as a no-op.) -/
def moveToEnd (k : String) (l : List (String × β)) : List (String × β) :=
  match lookupKey k l with
  | none => l
  | some v => eraseKey k l ++ [(k, v)]

/-! ### cache.py -/

/-- The `CacheEntry` class of cache.py: payload plus expiry/access metadata.
`timestamp` and `last_access` are the `time.time()` values at creation. -/
structure CacheEntry (α : Type) where
  data : α
  timestamp : ℤ
  ttl : ℤ
  accessCount : ℕ
  lastAccess : ℤ

/-- The `CacheEntry.is_expired` check: `time.time() - self.timestamp > self.ttl`. -/
def CacheEntry.isExpired (now : ℤ) (e : CacheEntry α) : Bool :=
  decide (now - e.timestamp > e.ttl)

/-- The mutation part of `CacheEntry.access`: bumps the access counter and
refreshes `last_access` (the method returns `self.data`, read off separately). -/
def CacheEntry.access (now : ℤ) (e : CacheEntry α) : CacheEntry α :=
  { e with accessCount := e.accessCount + 1, lastAccess := now }

/-- A single cache store: one `OrderedDict` of entries, keyed by string. -/
abbrev Store (α : Type) : Type := List (String × CacheEntry α)

/-- The whole `MemoryCache` object state: the tenant-less store `_cache`
plus the per-project stores `_project_caches` (a dict of stores, modelled
as a total function defaulting to the empty store). -/
structure CacheState (α : Type) where
  maxSize : ℕ
  defaultTtl : ℤ
  cache : Store α
  projectCaches : String → Store α

namespace MemoryCache

/-- The `MemoryCache._cleanup_expired` sweep: deletes every expired entry,
preserving the order of the survivors. -/
def cleanupExpired (now : ℤ) (c : Store α) : Store α :=
  c.filter (fun p => !(p.2.isExpired now))

/-- The `MemoryCache._evict_if_needed` loop:
`while len(cache) >= max_size: cache.popitem(last=False)` — pops from the
front while the size bound is (still) violated. (With `max_size = 0`
Python's `popitem` would raise on the emptied dict; the model returns the
empty store there, and the theorems that depend on eviction assume
`1 ≤ maxSize`, where the two agree.) -/
def evictIfNeeded (maxSize : ℕ) : Store α → Store α
  | [] => []
  | x :: t => if maxSize ≤ (x :: t).length then evictIfNeeded maxSize t else x :: t

/-- The `MemoryCache._get_cache` selector: a truthy `project_id` selects
(creating it on demand, invisible in the total-function model) the project
store, while `None` — and the falsy empty string — select the global store. -/
def getCache (st : CacheState α) (proj : Option String) : Store α :=
  match proj with
  | some p => if p ≠ "" then st.projectCaches p else st.cache
  | none => st.cache

/-- Writes back the store selected by `getCache`, with the same truthiness
rule on `proj`. -/
def putCache (st : CacheState α) (proj : Option String) (s : Store α) : CacheState α :=
  match proj with
  | some p =>
    if p ≠ "" then
      { st with projectCaches := fun q => if q = p then s else st.projectCaches q }
    else { st with cache := s }
  | none => { st with cache := s }

/-- The `ttl = ttl or self.default_ttl` resolution in `MemoryCache.set`:
both `None` and the falsy `0` fall back to the configured default. -/
def resolveTtl (st : CacheState α) (ttl : Option ℤ) : ℤ :=
  match ttl with
  | none => st.defaultTtl
  | some v => if v = 0 then st.defaultTtl else v

/-- The `MemoryCache.set` operation: resolve the TTL, sweep expired
entries, evict while full, then insert the fresh entry and move it to the
most-recent end. Returns the key and the new state. -/
def set (now : ℤ) (key : String) (data : α) (ttl : Option ℤ) (proj : Option String)
    (st : CacheState α) : String × CacheState α :=
  let t := resolveTtl st ttl
  let c0 := getCache st proj
  let c1 := cleanupExpired now c0
  let c2 := evictIfNeeded st.maxSize c1
  let c3 := moveToEnd key (setKey key (CacheEntry.mk data now t 0 now) c2)
  (key, putCache st proj c3)

/-- The `MemoryCache.get` operation: `None` on a missing key; on an expired
entry, deletes it and returns `None`; on a hit, returns the payload and
updates the entry's access metadata in place (its position is unchanged). -/
def get (now : ℤ) (key : String) (proj : Option String) (st : CacheState α) :
    Option α × CacheState α :=
  let c := getCache st proj
  match lookupKey key c with
  | none => (none, st)
  | some e =>
    if e.isExpired now then
      (none, putCache st proj (eraseKey key c))
    else
      (some e.data, putCache st proj (setKey key (e.access now) c))

/-- The dictionary returned by `MemoryCache.get_stats`. -/
structure Stats where
  totalEntries : ℕ
  expiredCount : ℕ
  activeEntries : ℕ
  totalAccesses : ℕ
  maxSize : ℕ
  defaultTtl : ℤ

/-- The `MemoryCache.get_stats` snapshot (purely read-only). -/
def getStats (now : ℤ) (proj : Option String) (st : CacheState α) : Stats :=
  let c := getCache st proj
  let expired := (c.filter (fun p => p.2.isExpired now)).length
  { totalEntries := c.length
    expiredCount := expired
    activeEntries := c.length - expired
    totalAccesses := (c.map (fun p => p.2.accessCount)).sum
    maxSize := st.maxSize
    defaultTtl := st.defaultTtl }

/-- The `MemoryCache.clear` operation: a truthy `project_id` clears that
project's store; `None` (or the falsy empty string) clears the global store. -/
def clear (proj : Option String) (st : CacheState α) : CacheState α :=
  match proj with
  | some p =>
    if p ≠ "" then
      { st with projectCaches := fun q => if q = p then [] else st.projectCaches q }
    else { st with cache := [] }
  | none => { st with cache := [] }

/-- The `MemoryCache.clear_all_projects` operation: empties every project
store, leaving the global store untouched. -/
def clearAllProjects (st : CacheState α) : CacheState α :=
  { st with projectCaches := fun _ => [] }

/-- The `MemoryCache._generate_key` derivation:
`sha256(json.dumps(data, sort_keys=True)).hexdigest()`, with the digest
abstracted as `hash`. -/
def generateKey (hash : String → String) (data : Json) : String :=
  hash (Json.dumps (Json.canon data))

/-- The three-field dict `cache_query_result`/`get_query_result` hash:
`{"query": query, "collection": collection_name, "project": project_id}`
in source field order (`None` serialises as JSON `null`). -/
def queryJson (query collection : String) (proj : Option String) : Json :=
  Json.obj [("query", Json.str query), ("collection", Json.str collection),
    ("project", match proj with | none => Json.null | some p => Json.str p)]

/-- The `MemoryCache.cache_query_result` wrapper: derive the key from the
`(query, collection, project)` dict and `set` it. -/
def cacheQueryResult (hash : String → String) (now : ℤ) (query : String) (result : α)
    (collection : String) (proj : Option String) (ttl : Option ℤ)
    (st : CacheState α) : String × CacheState α :=
  set now (generateKey hash (queryJson query collection proj)) result ttl proj st

/-- The `MemoryCache.get_query_result` wrapper: derive the same key and `get` it. -/
def getQueryResult (hash : String → String) (now : ℤ) (query collection : String)
    (proj : Option String) (st : CacheState α) : Option α × CacheState α :=
  get now (generateKey hash (queryJson query collection proj)) proj st

end MemoryCache

/-- A cache call made by a request handler, for stating sequence-level
invariants over `MemoryCache` (each call carries its wall-clock time). -/
inductive CacheOp (α : Type) where
  | set (now : ℤ) (key : String) (data : α) (ttl : Option ℤ) (proj : Option String)
  | get (now : ℤ) (key : String) (proj : Option String)
  | clear (proj : Option String)

/-- State transition of one cache call (return values discarded). -/
def CacheOp.apply (st : CacheState α) : CacheOp α → CacheState α
  | .set now key data ttl proj => (MemoryCache.set now key data ttl proj st).2
  | .get now key proj => (MemoryCache.get now key proj st).2
  | .clear proj => MemoryCache.clear proj st

/-- State after a whole call sequence, first call first. -/
def runOps (st : CacheState α) : List (CacheOp α) → CacheState α
  | [] => st
  | op :: rest => runOps (op.apply st) rest

/-- A `MemoryCache(max_size, default_ttl)` fresh instance. -/
def initCache (maxSize : ℕ) (defaultTtl : ℤ) : CacheState α :=
  ⟨maxSize, defaultTtl, [], fun _ => []⟩

/-! ### entity_mapper.py -/

/-- The `Entity` class: id, type label, properties dict and the set of
incident relationship ids (a Python `set`, modelled as a duplicate-free
list in insertion order). -/
structure Entity where
  entityId : String
  entityType : String
  properties : List (String × Json)
  relationships : List String

/-- The `Relationship` class (immutable after creation). -/
structure Relationship where
  relationshipId : String
  sourceId : String
  targetId : String
  relationshipType : String
  properties : List (String × Json)

/-- The `EntityRelationshipMapper` state: primary entity/relationship dicts
plus the two `defaultdict(set)` indices (modelled as total functions with
default empty). -/
structure MapperState where
  entities : List (String × Entity)
  relationships : List (String × Relationship)
  entityIndex : String → List String
  relationshipIndex : String × String → List String

/-- Python `set.add`: appends the element unless already present. -/
def insertOnce (x : String) (l : List String) : List String :=
  if x ∈ l then l else l ++ [x]

/-- A fresh `EntityRelationshipMapper()`. -/
def initMapper : MapperState :=
  ⟨[], [], fun _ => [], fun _ => []⟩

namespace Mapper

/-- The `add_entity` operation: build the entity (with `properties or {}`
and an empty relationship set), store it under its id (overwriting any
previous record) and register the id in the type index. -/
def addEntity (entityId entityType : String) (properties : Option (List (String × Json)))
    (st : MapperState) : Entity × MapperState :=
  let e : Entity := ⟨entityId, entityType, properties.getD [], []⟩
  (e, { st with
        entities := setKey entityId e st.entities
        entityIndex := fun t =>
          if t = entityType then insertOnce entityId (st.entityIndex entityType)
          else st.entityIndex t })

/-- The `add_relationship` operation: if either endpoint id is missing from
the entity dict, return `none` with the state untouched; otherwise store
the relationship, register its id in the `(source, target)` index and in
both endpoint entities' relationship sets. -/
def addRelationship (relationshipId sourceId targetId relationshipType : String)
    (properties : Option (List (String × Json))) (st : MapperState) :
    Option Relationship × MapperState :=
  if (lookupKey sourceId st.entities).isNone || (lookupKey targetId st.entities).isNone then
    (none, st)
  else
    let rel : Relationship := ⟨relationshipId, sourceId, targetId, relationshipType,
      properties.getD []⟩
    let st1 := { st with
      relationships := setKey relationshipId rel st.relationships
      relationshipIndex := fun pq =>
        if pq = (sourceId, targetId) then
          insertOnce relationshipId (st.relationshipIndex (sourceId, targetId))
        else st.relationshipIndex pq }
    let st2 := match lookupKey sourceId st1.entities with
      | none => st1
      | some e => { st1 with entities :=
          (setKey sourceId
            { e with relationships := insertOnce relationshipId e.relationships }
            st1.entities) }
    let st3 := match lookupKey targetId st2.entities with
      | none => st2
      | some e => { st2 with entities :=
          (setKey targetId
            { e with relationships := insertOnce relationshipId e.relationships }
            st2.entities) }
    (some rel, st3)

/-- Truthiness of the `relationship_type` filter in `get_connected_entities`:
the skip test `relationship_type and rel.relationship_type != relationship_type`. -/
def filterSkips (relFilter : Option String) (relType : String) : Bool :=
  match relFilter with
  | none => false
  | some f => decide (f ≠ "") && decide (relType ≠ f)

/-- The loop body of `get_connected_entities`: walk the entity's incident
relationship ids; for each, resolve the relationship and the opposite
endpoint, skipping filtered-out types and unresolvable endpoints.
(Unresolvable relationship ids would raise a `KeyError` in Python; they are
unreachable under the graph invariant and modelled as skipped.) -/
def connectedStep (st : MapperState) (entityId : String) (relFilter : Option String) :
    List String → List (Entity × Relationship)
  | [] => []
  | relId :: rest =>
    match lookupKey relId st.relationships with
    | none => connectedStep st entityId relFilter rest
    | some rel =>
      if filterSkips relFilter rel.relationshipType then
        connectedStep st entityId relFilter rest
      else
        let otherId := if rel.sourceId = entityId then rel.targetId else rel.sourceId
        match lookupKey otherId st.entities with
        | none => connectedStep st entityId relFilter rest
        | some other => (other, rel) :: connectedStep st entityId relFilter rest

/-- The `get_connected_entities` operation. -/
def getConnectedEntities (entityId : String) (relFilter : Option String)
    (st : MapperState) : List (Entity × Relationship) :=
  match lookupKey entityId st.entities with
  | none => []
  | some entity => connectedStep st entityId relFilter entity.relationships

/-- The inner `for entity, rel in connected` loop of `find_path`: either
returns the found path (`Sum.inr`), or the list of `(entityId, path)` pairs
to append to the BFS queue (`Sum.inl`), in iteration order. -/
def expandConnected (currentId targetId : String) (path : List (String × String)) :
    List (Entity × Relationship) →
    List (String × List (String × String)) ⊕ List (String × String)
  | [] => Sum.inl []
  | (entity, rel) :: rest =>
    let newPath := path ++ [(currentId, rel.relationshipId)]
    if entity.entityId = targetId then Sum.inr (newPath ++ [(entity.entityId, "")])
    else
      match expandConnected currentId targetId path rest with
      | Sum.inl additions => Sum.inl ((entity.entityId, newPath) :: additions)
      | Sum.inr found => Sum.inr found

/-- The `while queue:` loop of `find_path`, with an explicit fuel bound on
the number of pops. Each iteration pops the queue front; too-deep or
already-visited nodes are dropped, otherwise the node is marked visited and
expanded (returning immediately if the target is reached). -/
def bfsLoop (st : MapperState) (targetId : String) (maxDepth : ℤ) :
    ℕ → List String → List (String × List (String × String)) →
    Option (List (String × String))
  | 0, _, _ => none
  | _ + 1, _, [] => none
  | fuel + 1, visited, (currentId, path) :: queue =>
    if maxDepth ≤ (path.length : ℤ) then bfsLoop st targetId maxDepth fuel visited queue
    else if currentId ∈ visited then bfsLoop st targetId maxDepth fuel visited queue
    else
      match expandConnected currentId targetId path
          (getConnectedEntities currentId none st) with
      | Sum.inr found => some found
      | Sum.inl additions =>
        bfsLoop st targetId maxDepth fuel (visited ++ [currentId]) (queue ++ additions)

/-- The `find_path` operation: `None` when either endpoint is missing, the
empty path when source equals target, otherwise the BFS loop starting from
`[(source_id, [])]`. Python's loop always terminates (every entity is
expanded at most once, so the number of pops is finite); the fuel
`|entities| * (|relationships| + 1) + 1` dominates that number of pops, so
on every state the model computes the same answer as the unbounded loop. -/
def findPath (sourceId targetId : String) (maxDepth : ℤ) (st : MapperState) :
    Option (List (String × String)) :=
  if (lookupKey sourceId st.entities).isNone || (lookupKey targetId st.entities).isNone then
    none
  else if sourceId = targetId then some []
  else
    bfsLoop st targetId maxDepth
      (st.entities.length * (st.relationships.length + 1) + 1) [] [(sourceId, [])]

end Mapper

/-! ### swarm.py -/

/-- The metadata dict stored on a trail at first creation
(`operation_type`, `collection`, `query`, `first_seen`). -/
structure TrailMetadata where
  operationType : String
  collection : String
  query : String
  firstSeen : ℚ

/-- The `PheromoneTrail` class. A fresh trail starts with `strength = 1.0`,
zero accesses and an empty metadata dict (modelled as `none`). -/
structure PheromoneTrail where
  trailId : String
  strength : ℚ
  lastUpdate : ℚ
  accessCount : ℕ
  metadata : Option TrailMetadata

/-- The `PheromoneTrail.reinforce` method: additive increase capped at 1.0,
refreshing `last_update` and bumping `access_count`. -/
def PheromoneTrail.reinforce (now amount : ℚ) (t : PheromoneTrail) : PheromoneTrail :=
  { t with strength := min 1 (t.strength + amount)
           lastUpdate := now
           accessCount := t.accessCount + 1 }

/-- The `PheromoneTrail.evaporate` method:
`strength = max(0.0, strength - rate * (now - last_update) / 60)`, then
`last_update = now`. -/
def PheromoneTrail.evaporate (now rate : ℚ) (t : PheromoneTrail) : PheromoneTrail :=
  { t with strength := max 0 (t.strength - rate * (now - t.lastUpdate) / 60)
           lastUpdate := now }

/-- One record of the per-collection operation log of `track_operation`. -/
structure PatternRecord where
  timestamp : ℚ
  operation : String
  trailId : String

/-- The `SwarmTracker` state: evaporation rate, the trail dict, and the
`defaultdict(list)` per-collection operation log (a total function with
default empty list). -/
structure SwarmState where
  evaporationRate : ℚ
  trails : List (String × PheromoneTrail)
  operationPatterns : String → List PatternRecord

/-- A fresh `SwarmTracker(evaporation_rate)`. -/
def initSwarm (rate : ℚ) : SwarmState :=
  ⟨rate, [], fun _ => []⟩

namespace SwarmTracker

/-- The `SwarmTracker._generate_trail_id` derivation: the (truncated) hex
digest of `f"{operation_type}:{collection}:{query}"`, with the digest
abstracted as `hash`. -/
def generateTrailId (hash : String → String) (operationType collection query : String) :
    String :=
  hash (operationType ++ ":" ++ collection ++ ":" ++ query)

/-- Python's `query or ""` coercion: `None` and the falsy empty string both
become `""`; any other string is kept. -/
def queryOr : Option String → String
  | none => ""
  | some q => if q = "" then "" else q

/-- The `SwarmTracker.track_operation` operation: derive the trail id from
`(operation_type, collection, query or "")`; create the trail (strength 1.0,
first-seen metadata) if absent; reinforce it by 0.1; append a pattern
record to the collection's operation log. Returns the trail id. (The
`metadata` parameter of the Python method is never read and is omitted.) -/
def trackOperation (hash : String → String) (now : ℚ) (operationType collection : String)
    (query : Option String) (st : SwarmState) : String × SwarmState :=
  let qs := queryOr query
  let tid := generateTrailId hash operationType collection qs
  let st1 :=
    match lookupKey tid st.trails with
    | some _ => st
    | none =>
      { st with trails := st.trails ++
          [(tid, (⟨tid, 1, now, 0, some ⟨operationType, collection, qs, now⟩⟩ :
            PheromoneTrail))] }
  let st2 :=
    match lookupKey tid st1.trails with
    | none => st1
    | some tr => { st1 with trails := setKey tid (tr.reinforce now (1 / 10)) st1.trails }
  let st3 := { st2 with operationPatterns := fun c =>
      if c = collection then
        st2.operationPatterns collection ++ [(⟨now, operationType, tid⟩ : PatternRecord)]
      else st2.operationPatterns c }
  (tid, st3)

/-- One element of the list returned by `get_hot_trails`
(`trail_id`, `strength`, `access_count`, `metadata`). -/
structure TrailSummary where
  trailId : String
  strength : ℚ
  accessCount : ℕ
  metadata : Option TrailMetadata

/-- The `SwarmTracker.get_hot_trails` operation: evaporate every trail in
place, then collect the trails with `strength >= min_strength` (in trail
insertion order), sort them by strength descending (Python's stable
`list.sort`, modelled as a stable comparison sort) and return the first
`limit` of them, together with the mutated state. -/
def getHotTrails (now minStrength : ℚ) (limit : ℕ) (st : SwarmState) :
    List TrailSummary × SwarmState :=
  let evaporated := st.trails.map (fun p => (p.1, p.2.evaporate now st.evaporationRate))
  let hot := ((evaporated.map (fun p => p.2)).filter
      (fun t => decide (minStrength ≤ t.strength))).map
    (fun t => TrailSummary.mk t.trailId t.strength t.accessCount t.metadata)
  let sorted := List.insertionSort (fun a b => b.strength ≤ a.strength) hot
  (sorted.take limit, { st with trails := evaporated })

/-- The dict returned by `get_collection_patterns`. In the empty-log branch
Python returns only the collection name and an empty pattern list; the
numeric fields are 0 there. -/
structure PatternSummary where
  collection : String
  totalOperations : ℕ
  operationCounts : String → ℕ
  recentOperations : ℕ
  patterns : List PatternRecord

/-- The `SwarmTracker.get_collection_patterns` operation: aggregate counts
over the last 100 log records (`patterns[-100:]`), count those within the
last hour, and return the last 10 records (`patterns[-10:]`). -/
def getCollectionPatterns (now : ℚ) (collection : String) (st : SwarmState) :
    PatternSummary :=
  let patterns := st.operationPatterns collection
  if patterns.isEmpty then ⟨collection, 0, fun _ => 0, 0, []⟩
  else
    let window := patterns.drop (patterns.length - 100)
    ⟨collection, patterns.length,
      fun op => (window.filter (fun p => decide (p.operation = op))).length,
      (window.filter (fun p => decide (now - p.timestamp < 3600))).length,
      patterns.drop (patterns.length - 10)⟩

end SwarmTracker

/-- Two-entity graph used to exercise `add_relationship`. -/
def twoEntityMapper : MapperState :=
  (Mapper.addEntity "B" "node" none (Mapper.addEntity "A" "node" none initMapper).2).2

/-- The chain graph A -r1-> B -r2-> C of the path-search property. -/
def chainGraph : MapperState :=
  (Mapper.addRelationship "r2" "B" "C" "rel" none
    (Mapper.addRelationship "r1" "A" "B" "rel" none
      (Mapper.addEntity "C" "node" none twoEntityMapper).2).2).2

/-- Probe run for the eviction-order claim: Set(k1), Set(k2), Get(k1) on a
fresh capacity-2 cache, then Set(k3), which triggers a capacity eviction. -/
def lruProbe : CacheState String :=
  (MemoryCache.set 3 "k3" "v3" none none
    (MemoryCache.get 2 "k1" none
      (MemoryCache.set 1 "k2" "v2" none none
        (MemoryCache.set 0 "k1" "v1" none none (initCache 2 3600)).2).2).2).2

/-- Repeated `track_operation` calls for the same operation and collection
(call number used as the clock), newest call last. -/
def trackRepeat (hash : String → String) (op coll : String) : ℕ → SwarmState → SwarmState
  | 0, st => st
  | n + 1, st =>
    (SwarmTracker.trackOperation hash (n : ℚ) op coll none
      (trackRepeat hash op coll n st)).2

/-- A tracker holding one trail, for exercising `get_hot_trails`. -/
def oneTrailSwarm : SwarmState :=
  (SwarmTracker.trackOperation id 0 "query" "c" none (initSwarm 0)).2

instance : IsTotal (String × Json) (fun a b => a.1 ≤ b.1) :=
  ⟨fun a b => le_total a.1 b.1⟩

instance : IsTrans (String × Json) (fun a b => a.1 ≤ b.1) :=
  ⟨fun _ _ _ h1 h2 => le_trans h1 h2⟩

instance : IsTotal SwarmTracker.TrailSummary (fun a b => b.strength ≤ a.strength) :=
  ⟨fun a b => le_total b.strength a.strength⟩

instance : IsTrans SwarmTracker.TrailSummary (fun a b => b.strength ≤ a.strength) :=
  ⟨fun _ _ _ h1 h2 => le_trans h2 h1⟩

/-! ### Helper lemmas on the dictionary primitives -/

theorem lookupKey_setKey_self (k : String) (v : β) (l : List (String × β)) :
    lookupKey k (setKey k v l) = some v := by
  induction l with
  | nil => simp [setKey, lookupKey]
  | cons p t ih =>
    obtain ⟨a, b⟩ := p
    by_cases h : a = k
    · simp [setKey, lookupKey, h]
    · simpa [setKey, lookupKey, h] using ih

theorem lookupKey_setKey_other (k k' : String) (v : β) (l : List (String × β))
    (h : k' ≠ k) : lookupKey k' (setKey k v l) = lookupKey k' l := by
  have hk : k ≠ k' := fun hh => h hh.symm
  induction l with
  | nil => simp [setKey, lookupKey, hk]
  | cons p t ih =>
    obtain ⟨a, b⟩ := p
    by_cases ha : a = k
    · subst ha
      simp [setKey, lookupKey, hk]
    · by_cases ha' : a = k'
      · simp [setKey, lookupKey, ha, ha', hk, h]
      · simp [setKey, lookupKey, ha, ha', ih]

theorem eraseKey_setKey (k : String) (v : β) (l : List (String × β)) :
    eraseKey k (setKey k v l) = eraseKey k l := by
  induction l with
  | nil => simp [setKey, eraseKey]
  | cons p t ih =>
    obtain ⟨a, b⟩ := p
    by_cases h : a = k
    · simp [setKey, eraseKey, List.filter_cons, h]
    · simpa [setKey, eraseKey, List.filter_cons, h] using ih

theorem lookupKey_eraseKey_self (k : String) (l : List (String × β)) :
    lookupKey k (eraseKey k l) = none := by
  induction l with
  | nil => rfl
  | cons p t ih =>
    obtain ⟨a, b⟩ := p
    by_cases h : a = k
    · simpa [eraseKey, List.filter_cons, h] using ih
    · simpa [eraseKey, List.filter_cons, h, lookupKey] using ih

theorem lookupKey_eraseKey_other (k k' : String) (l : List (String × β)) (h : k' ≠ k) :
    lookupKey k' (eraseKey k l) = lookupKey k' l := by
  have hk : k ≠ k' := fun hh => h hh.symm
  induction l with
  | nil => rfl
  | cons p t ih =>
    obtain ⟨a, b⟩ := p
    by_cases ha : a = k
    · simpa [eraseKey, List.filter_cons, ha, lookupKey, hk] using ih
    · by_cases ha' : a = k'
      · simp [eraseKey, List.filter_cons, ha, lookupKey, ha', hk, h]
      · simpa [eraseKey, List.filter_cons, ha, lookupKey, ha'] using ih

theorem lookupKey_append (k : String) (l l' : List (String × β)) :
    lookupKey k (l ++ l') =
      match lookupKey k l with
      | some v => some v
      | none => lookupKey k l' := by
  induction l with
  | nil => simp [lookupKey]
  | cons p t ih =>
    obtain ⟨a, b⟩ := p
    by_cases h : a = k <;> simp [lookupKey, h, ih]

theorem length_eraseKey_le (k : String) (l : List (String × β)) :
    (eraseKey k l).length ≤ l.length :=
  List.length_filter_le _ l

theorem length_setKey_mem (k : String) (v v' : β) (l : List (String × β))
    (h : lookupKey k l = some v') : (setKey k v l).length = l.length := by
  induction l with
  | nil => simp [lookupKey] at h
  | cons p t ih =>
    obtain ⟨a, b⟩ := p
    by_cases ha : a = k
    · simp [setKey, ha]
    · simp only [lookupKey, ha, if_false] at h
      simp [setKey, ha, ih h]

theorem map_fst_setKey_mem (k : String) (v v' : β) (l : List (String × β))
    (h : lookupKey k l = some v') : (setKey k v l).map Prod.fst = l.map Prod.fst := by
  induction l with
  | nil => simp [lookupKey] at h
  | cons p t ih =>
    obtain ⟨a, b⟩ := p
    by_cases ha : a = k
    · simp [setKey, ha]
    · simp only [lookupKey, ha, if_false] at h
      simp [setKey, ha, ih h]

/-! ### Scope and frame lemmas for the cache -/

/-- Scope normalisation induced by the truthiness test on `project_id`:
the empty string aliases the tenant-less scope. -/
def scopeOf : Option String → Option String
  | none => none
  | some p => if p = "" then none else some p

theorem getCache_congr_scope (st : CacheState α) (proj proj' : Option String)
    (h : scopeOf proj = scopeOf proj') :
    MemoryCache.getCache st proj = MemoryCache.getCache st proj' := by
  cases proj with
  | none =>
    cases proj' with
    | none => rfl
    | some q =>
      by_cases hq : q = "" <;> simp [scopeOf, hq] at h ⊢ <;>
        simp [MemoryCache.getCache, hq]
  | some p =>
    cases proj' with
    | none =>
      by_cases hp : p = "" <;> simp [scopeOf, hp] at h ⊢ <;>
        simp [MemoryCache.getCache, hp]
    | some q =>
      by_cases hp : p = "" <;> by_cases hq : q = "" <;>
        simp [scopeOf, hp, hq] at h ⊢ <;> simp [MemoryCache.getCache, hp, hq, h]

theorem getCache_putCache_same (st : CacheState α) (proj proj' : Option String)
    (s : Store α) (h : scopeOf proj' = scopeOf proj) :
    MemoryCache.getCache (MemoryCache.putCache st proj s) proj' = s := by
  cases proj with
  | none =>
    cases proj' with
    | none => rfl
    | some q =>
      by_cases hq : q = "" <;> simp [scopeOf, hq] at h ⊢ <;>
        simp [MemoryCache.getCache, MemoryCache.putCache, hq]
  | some p =>
    cases proj' with
    | none =>
      by_cases hp : p = "" <;> simp [scopeOf, hp] at h ⊢ <;>
        simp [MemoryCache.getCache, MemoryCache.putCache, hp]
    | some q =>
      by_cases hp : p = "" <;> by_cases hq : q = "" <;>
        simp [scopeOf, hp, hq] at h ⊢ <;>
        simp [MemoryCache.getCache, MemoryCache.putCache, hp, hq, h]

theorem getCache_putCache_other (st : CacheState α) (proj proj' : Option String)
    (s : Store α) (h : scopeOf proj' ≠ scopeOf proj) :
    MemoryCache.getCache (MemoryCache.putCache st proj s) proj'
      = MemoryCache.getCache st proj' := by
  cases proj with
  | none =>
    cases proj' with
    | none => simp [scopeOf] at h
    | some q =>
      by_cases hq : q = ""
      · simp [scopeOf, hq] at h
      · simp [MemoryCache.getCache, MemoryCache.putCache, hq]
  | some p =>
    cases proj' with
    | none =>
      by_cases hp : p = ""
      · simp [scopeOf, hp] at h
      · simp [MemoryCache.getCache, MemoryCache.putCache, hp]
    | some q =>
      by_cases hp : p = "" <;> by_cases hq : q = "" <;>
        simp [scopeOf, hp, hq] at h <;>
        simp [MemoryCache.getCache, MemoryCache.putCache, hp, hq]
      · intro hqp
        exact absurd hqp h

theorem length_evictIfNeeded_lt (maxSize : ℕ) (h : 1 ≤ maxSize) (l : Store α) :
    (MemoryCache.evictIfNeeded maxSize l).length < maxSize := by
  induction l with
  | nil => simpa [MemoryCache.evictIfNeeded] using h
  | cons x t ih =>
    simp only [MemoryCache.evictIfNeeded, List.length_cons]
    by_cases hc : maxSize ≤ t.length + 1
    · simpa [hc] using ih
    · simp only [hc, if_false, List.length_cons]
      omega

/-- Shape of the target store after `set`: the expiry sweep then the
eviction loop run on the old store, and the fresh entry lands at the
most-recent end (any stale binding of the key is gone). -/
theorem set_store_shape (now : ℤ) (key : String) (data : α) (ttl : Option ℤ)
    (proj : Option String) (st : CacheState α) :
    MemoryCache.getCache (MemoryCache.set now key data ttl proj st).2 proj
      = eraseKey key (MemoryCache.evictIfNeeded st.maxSize
          (MemoryCache.cleanupExpired now (MemoryCache.getCache st proj)))
        ++ [(key, CacheEntry.mk data now (MemoryCache.resolveTtl st ttl) 0 now)] := by
  unfold MemoryCache.set
  rw [getCache_putCache_same _ _ _ _ rfl]
  unfold moveToEnd
  rw [lookupKey_setKey_self, eraseKey_setKey]

theorem length_set_le (now : ℤ) (key : String) (data : α) (ttl : Option ℤ)
    (proj : Option String) (st : CacheState α) (h : 1 ≤ st.maxSize) :
    (MemoryCache.getCache (MemoryCache.set now key data ttl proj st).2 proj).length
      ≤ st.maxSize := by
  rw [set_store_shape]
  have h1 := length_eraseKey_le key (MemoryCache.evictIfNeeded st.maxSize
    (MemoryCache.cleanupExpired now (MemoryCache.getCache st proj)))
  have h2 := length_evictIfNeeded_lt st.maxSize h
    (MemoryCache.cleanupExpired now (MemoryCache.getCache st proj))
  simp only [List.length_append, List.length_cons, List.length_nil]
  omega

theorem get_length_le (now : ℤ) (key : String) (proj proj' : Option String)
    (st : CacheState α) :
    (MemoryCache.getCache (MemoryCache.get now key proj st).2 proj').length
      ≤ (MemoryCache.getCache st proj').length := by
  unfold MemoryCache.get
  cases hl : lookupKey key (MemoryCache.getCache st proj) with
  | none => simp [hl]
  | some e =>
    simp only [hl]
    by_cases he : e.isExpired now
    · simp only [he, if_true]
      by_cases hs : scopeOf proj' = scopeOf proj
      · rw [getCache_putCache_same _ _ _ _ hs, getCache_congr_scope st proj' proj hs]
        exact length_eraseKey_le key _
      · rw [getCache_putCache_other _ _ _ _ hs]
    · simp only [he, if_false, Bool.false_eq_true]
      by_cases hs : scopeOf proj' = scopeOf proj
      · rw [getCache_putCache_same _ _ _ _ hs, getCache_congr_scope st proj' proj hs]
        exact le_of_eq (length_setKey_mem key _ e _ hl)
      · rw [getCache_putCache_other _ _ _ _ hs]

theorem maxSize_apply (op : CacheOp α) (st : CacheState α) :
    (op.apply st).maxSize = st.maxSize := by
  cases op with
  | set now key data ttl proj =>
    show (MemoryCache.putCache st proj _).maxSize = st.maxSize
    cases proj with
    | none => rfl
    | some p => by_cases hp : p = "" <;> simp [MemoryCache.putCache, hp]
  | get now key proj =>
    unfold CacheOp.apply MemoryCache.get
    cases hl : lookupKey key (MemoryCache.getCache st proj) with
    | none => simp [hl]
    | some e =>
      simp only [hl]
      by_cases he : e.isExpired now <;>
        simp only [he, if_true, if_false, Bool.false_eq_true] <;>
        cases proj with
        | none => rfl
        | some p => by_cases hp : p = "" <;> simp [MemoryCache.putCache, hp]
  | clear proj =>
    cases proj with
    | none => rfl
    | some p => by_cases hp : p = "" <;> simp [CacheOp.apply, MemoryCache.clear, hp]

theorem length_apply_le (op : CacheOp α) (st : CacheState α) (maxSize : ℕ)
    (hms : st.maxSize = maxSize) (h1 : 1 ≤ maxSize)
    (hb : ∀ proj, (MemoryCache.getCache st proj).length ≤ maxSize) :
    ∀ proj, (MemoryCache.getCache (op.apply st) proj).length ≤ maxSize := by
  intro proj
  cases op with
  | set now key data ttl proj1 =>
    by_cases hs : scopeOf proj = scopeOf proj1
    · show (MemoryCache.getCache (MemoryCache.set now key data ttl proj1 st).2 proj).length ≤ _
      have := length_set_le now key data ttl proj1 st (hms ▸ h1)
      rw [show MemoryCache.getCache (MemoryCache.set now key data ttl proj1 st).2 proj
          = MemoryCache.getCache (MemoryCache.set now key data ttl proj1 st).2 proj1 from ?_]
      · exact hms ▸ this
      · unfold MemoryCache.set
        rw [getCache_putCache_same _ _ _ _ hs, getCache_putCache_same _ _ _ _ rfl]
    · show (MemoryCache.getCache (MemoryCache.set now key data ttl proj1 st).2 proj).length ≤ _
      unfold MemoryCache.set
      rw [getCache_putCache_other _ _ _ _ hs]
      exact hb proj
  | get now key proj1 =>
    exact le_trans (get_length_le now key proj1 proj st) (hb proj)
  | clear proj1 =>
    show (MemoryCache.getCache (MemoryCache.clear proj1 st) proj).length ≤ _
    cases proj1 with
    | none =>
      cases proj with
      | none => simp [MemoryCache.clear, MemoryCache.getCache]
      | some q =>
        by_cases hq : q = "" <;>
          simpa [MemoryCache.clear, MemoryCache.getCache, hq] using hb (some q)
    | some p =>
      by_cases hp : p = ""
      · cases proj with
        | none => simp [MemoryCache.clear, MemoryCache.getCache, hp]
        | some q =>
          by_cases hq : q = "" <;>
            simpa [MemoryCache.clear, MemoryCache.getCache, hp, hq] using hb (some q)
      · cases proj with
        | none => simpa [MemoryCache.clear, MemoryCache.getCache, hp] using hb none
        | some q =>
          by_cases hq : q = ""
          · simpa [MemoryCache.clear, MemoryCache.getCache, hp, hq] using hb (some q)
          · by_cases hqp : q = p <;>
              simpa [MemoryCache.clear, MemoryCache.getCache, hp, hq, hqp] using hb (some q)

theorem runOps_length_bound (maxSize : ℕ) (h1 : 1 ≤ maxSize) (ops : List (CacheOp α)) :
    ∀ st : CacheState α, st.maxSize = maxSize →
    (∀ proj, (MemoryCache.getCache st proj).length ≤ maxSize) →
    ∀ proj, (MemoryCache.getCache (runOps st ops) proj).length ≤ maxSize := by
  induction ops with
  | nil => intro st _ hb proj; exact hb proj
  | cons op rest ih =>
    intro st hms hb proj
    exact ih (op.apply st) (by rw [maxSize_apply, hms])
      (length_apply_le op st maxSize hms h1 hb) proj

theorem mem_insertOnce_self (x : String) (l : List String) : x ∈ insertOnce x l := by
  by_cases h : x ∈ l <;> simp [insertOnce, h]

/-! ### Claim C5 -/

/-- C5: starting from a fresh `MemoryCache(max_size, default_ttl)` with
`1 ≤ max_size`, after any sequence of `set`/`get`/`clear` calls — in
particular after each `set` — the live entry count of every scope's store
is at most `max_size`; and `set` runs the expiry sweep and then the
eviction loop on the target store before inserting the new entry. -/
theorem c5_cache_size_bound (maxSize : ℕ) (dttl : ℤ) (h1 : 1 ≤ maxSize)
    (ops : List (CacheOp α)) (proj : Option String) :
    (MemoryCache.getCache (runOps (initCache maxSize dttl) ops) proj).length ≤ maxSize ∧
    (∀ (now : ℤ) (key : String) (data : α) (ttl : Option ℤ) (proj' : Option String)
        (st : CacheState α),
      MemoryCache.getCache (MemoryCache.set now key data ttl proj' st).2 proj'
        = eraseKey key (MemoryCache.evictIfNeeded st.maxSize
            (MemoryCache.cleanupExpired now (MemoryCache.getCache st proj')))
          ++ [(key, CacheEntry.mk data now (MemoryCache.resolveTtl st ttl) 0 now)]) := by
  constructor
  · refine runOps_length_bound maxSize h1 ops (initCache maxSize dttl) rfl ?_ proj
    intro pr
    cases pr with
    | none => simp [initCache, MemoryCache.getCache]
    | some p => by_cases hp : p = "" <;> simp [initCache, MemoryCache.getCache, hp]
  · exact fun now key data ttl proj' st => set_store_shape now key data ttl proj' st

theorem c5_cache_size_bound_witness :
    (MemoryCache.getCache (runOps (initCache 2 3600)
        [CacheOp.set 0 "a" "x" none none, CacheOp.set 1 "b" "y" none none,
         CacheOp.set 2 "c" "z" none none]) none).length ≤ 2 :=
  (c5_cache_size_bound 2 3600 (by decide)
    [CacheOp.set 0 "a" "x" none none, CacheOp.set 1 "b" "y" none none,
     CacheOp.set 2 "c" "z" none none] none).1

/-! ### Claim C10 -/

/-- C10: `track_operation` with the query argument omitted (`None`) and
with the empty-string query coincide completely — `query or ""` collapses
both to `""`, so they derive the same trail id and create or reinforce the
same trail, with identical resulting states. -/
theorem c10_track_absent_eq_empty_query (hash : String → String) (now : ℚ)
    (operationType collection : String) (st : SwarmState) :
    SwarmTracker.trackOperation hash now operationType collection none st
      = SwarmTracker.trackOperation hash now operationType collection (some "") st := by
  simp [SwarmTracker.trackOperation, SwarmTracker.queryOr]

/-! ### Claim C3 -/

/-- C3: `add_relationship` returns `none` and leaves the state untouched
whenever an endpoint id is missing from the entity dict (no partial
creation); when both endpoints exist it returns the relationship and
registers its id in the relationships dict, in both endpoint entities'
relationship sets, and in the `(source, target)` index. -/
theorem c3_add_relationship (rid src tgt rtype : String)
    (props : Option (List (String × Json))) (st : MapperState) :
    ((lookupKey src st.entities = none ∨ lookupKey tgt st.entities = none) →
      Mapper.addRelationship rid src tgt rtype props st = (none, st)) ∧
    (∀ es et, lookupKey src st.entities = some es → lookupKey tgt st.entities = some et →
      (Mapper.addRelationship rid src tgt rtype props st).1
          = some ⟨rid, src, tgt, rtype, props.getD []⟩ ∧
      lookupKey rid (Mapper.addRelationship rid src tgt rtype props st).2.relationships
          = some ⟨rid, src, tgt, rtype, props.getD []⟩ ∧
      (∃ es', lookupKey src (Mapper.addRelationship rid src tgt rtype props st).2.entities
          = some es' ∧ rid ∈ es'.relationships) ∧
      (∃ et', lookupKey tgt (Mapper.addRelationship rid src tgt rtype props st).2.entities
          = some et' ∧ rid ∈ et'.relationships) ∧
      rid ∈ (Mapper.addRelationship rid src tgt rtype props st).2.relationshipIndex
        (src, tgt)) := by
  constructor
  · intro h
    rcases h with h | h <;> simp [Mapper.addRelationship, h]
  · intro es et hsrc htgt
    by_cases hst : tgt = src
    · subst hst
      have hee : et = es := by rw [hsrc] at htgt; exact (Option.some_injective _ htgt).symm
      subst hee
      simp only [Mapper.addRelationship, hsrc, Option.isNone_some, Bool.or_self,
        Bool.false_eq_true, if_false, lookupKey_setKey_self]
      simp [mem_insertOnce_self]
    · have hto : ∀ (v : Entity) (l : List (String × Entity)),
          lookupKey tgt (setKey src v l) = lookupKey tgt l :=
        fun v l => lookupKey_setKey_other src tgt v l hst
      have hso : ∀ (v : Entity) (l : List (String × Entity)),
          lookupKey src (setKey tgt v l) = lookupKey src l :=
        fun v l => lookupKey_setKey_other tgt src v l (Ne.symm hst)
      simp only [Mapper.addRelationship, hsrc, htgt, Option.isNone_some, Bool.or_self,
        Bool.false_eq_true, if_false, lookupKey_setKey_self, hto, hso]
      simp [mem_insertOnce_self]

theorem c3_add_relationship_witness :
    (Mapper.addRelationship "r9" "A" "Z" "knows" none
        (Mapper.addEntity "A" "node" none initMapper).2 = (none, (Mapper.addEntity "A"
        "node" none initMapper).2)) ∧
    (Mapper.addRelationship "r9" "A" "B" "knows" none twoEntityMapper).1
      = some ⟨"r9", "A", "B", "knows", []⟩ := by
  constructor
  · exact (c3_add_relationship "r9" "A" "Z" "knows" none
      (Mapper.addEntity "A" "node" none initMapper).2).1 (Or.inr rfl)
  · exact ((c3_add_relationship "r9" "A" "B" "knows" none twoEntityMapper).2
      ⟨"A", "node", [], []⟩ ⟨"B", "node", [], []⟩ rfl rfl).1

theorem eraseKey_idem_append (k : String) (e : β) (c : List (String × β)) :
    eraseKey k (eraseKey k c ++ [(k, e)]) = eraseKey k c := by
  simp [eraseKey, List.filter_append, List.filter_filter]

theorem lookupKey_after_set (now : ℤ) (key : String) (data : α) (ttl : Option ℤ)
    (proj : Option String) (st : CacheState α) :
    lookupKey key (MemoryCache.getCache (MemoryCache.set now key data ttl proj st).2 proj)
      = some (CacheEntry.mk data now (MemoryCache.resolveTtl st ttl) 0 now) := by
  rw [set_store_shape, lookupKey_append, lookupKey_eraseKey_self]
  simp [lookupKey]

theorem get_of_lookup_none (now : ℤ) (key : String) (proj : Option String)
    (st : CacheState α) (h : lookupKey key (MemoryCache.getCache st proj) = none) :
    MemoryCache.get now key proj st = (none, st) := by
  simp [MemoryCache.get, h]

/-! ### Claim C1 -/

/-- C1 counterexample: on a capacity-2 cache, after Set(k1), Set(k2),
Get(k1), the next Set evicts k1 — the entry the claim says the Get had
just made most-recently-used — while k2 survives. -/
theorem c1_counterexample :
    (MemoryCache.get 4 "k1" none lruProbe).1 = none ∧
    (MemoryCache.get 4 "k2" none lruProbe).1 = some "v2" := by
  decide

/-- C1 (amended): a `get` hit returns the payload and updates only the
entry's access metadata — the store's key order is unchanged, so an access
is not a re-insertion for ordering purposes — and capacity eviction pops
entries from the front of the store, i.e. in insertion (`set`) order;
consequently after Set(k1), Set(k2), Get(k1), a capacity eviction removes
k1 before k2. -/
theorem c1_get_preserves_order (st : CacheState α) (now : ℤ) (key : String)
    (proj : Option String) (e : CacheEntry α)
    (hl : lookupKey key (MemoryCache.getCache st proj) = some e)
    (he : e.isExpired now = false) :
    (MemoryCache.get now key proj st).1 = some e.data ∧
    (MemoryCache.getCache (MemoryCache.get now key proj st).2 proj).map Prod.fst
      = (MemoryCache.getCache st proj).map Prod.fst ∧
    lookupKey key (MemoryCache.getCache (MemoryCache.get now key proj st).2 proj)
      = some (e.access now) ∧
    (∀ (maxSize : ℕ) (x : String × CacheEntry α) (t : Store α),
      maxSize ≤ (x :: t).length →
      MemoryCache.evictIfNeeded maxSize (x :: t) = MemoryCache.evictIfNeeded maxSize t) ∧
    ((MemoryCache.get 4 "k1" none lruProbe).1 = none ∧
      (MemoryCache.get 4 "k2" none lruProbe).1 = some "v2") := by
  refine ⟨?_, ?_, ?_, ?_, by decide⟩
  · simp [MemoryCache.get, hl, he]
  · simp only [MemoryCache.get, hl, he, Bool.false_eq_true, if_false]
    rw [getCache_putCache_same _ _ _ _ rfl]
    exact map_fst_setKey_mem key _ e _ hl
  · simp only [MemoryCache.get, hl, he, Bool.false_eq_true, if_false]
    rw [getCache_putCache_same _ _ _ _ rfl]
    exact lookupKey_setKey_self _ _ _
  · intro maxSize x t hle
    simp only [MemoryCache.evictIfNeeded]
    rw [if_pos hle]

theorem c1_get_preserves_order_witness :
    (MemoryCache.get 1 "k" none
      (MemoryCache.set 0 "k" "v" none none (initCache 2 3600)).2).1 = some "v" :=
  (c1_get_preserves_order
    (MemoryCache.set 0 "k" "v" none none (initCache 2 3600)).2 1 "k" none
    (CacheEntry.mk "v" 0 3600 0 0) rfl rfl).1

/-! ### Claim C2 -/

/-- C2 counterexample: an entry set with ttl = 10 at time 0 is still a hit
at time exactly 10 (elapsed = T), where the claim requires a miss for
every elapsed time ≥ T: expiry in the code is strict (`elapsed > ttl`). -/
theorem c2_counterexample :
    (MemoryCache.get 10 "k" none
      (MemoryCache.set 0 "k" "v" (some 10) none (initCache 5 3600)).2).1 = some "v" := by
  decide

/-- C2 (amended): a value set with ttl = T (T ≠ 0) at time t0 is
retrievable via `get` at every time t1 with elapsed time ≤ T, and is a
miss for every elapsed time > T; the miss deletes the entry, so the key is
absent from the store, every subsequent `get` of the key also misses, and
the stats snapshot counts one entry fewer than before the expired get. -/
theorem c2_ttl_boundary (st : CacheState α) (t0 t1 : ℤ) (key : String) (v : α)
    (T : ℤ) (proj : Option String) (hT : T ≠ 0) :
    (t1 - t0 ≤ T →
      (MemoryCache.get t1 key proj (MemoryCache.set t0 key v (some T) proj st).2).1
        = some v) ∧
    (t1 - t0 > T →
      (MemoryCache.get t1 key proj (MemoryCache.set t0 key v (some T) proj st).2).1
          = none ∧
      lookupKey key (MemoryCache.getCache
        (MemoryCache.get t1 key proj (MemoryCache.set t0 key v (some T) proj st).2).2 proj)
          = none ∧
      (∀ t2 : ℤ, (MemoryCache.get t2 key proj
        (MemoryCache.get t1 key proj
          (MemoryCache.set t0 key v (some T) proj st).2).2).1 = none) ∧
      (∀ t2 : ℤ, (MemoryCache.getStats t2 proj
          (MemoryCache.get t1 key proj
            (MemoryCache.set t0 key v (some T) proj st).2).2).totalEntries + 1
        = (MemoryCache.getStats t2 proj
            (MemoryCache.set t0 key v (some T) proj st).2).totalEntries)) := by
  have hres : MemoryCache.resolveTtl st (some T) = T := by
    simp [MemoryCache.resolveTtl, hT]
  have hl := lookupKey_after_set t0 key v (some T) proj st
  rw [hres] at hl
  constructor
  · intro hle
    have hexp : (CacheEntry.mk v t0 T 0 t0).isExpired t1 = false := by
      simp only [CacheEntry.isExpired, decide_eq_false_iff_not, not_lt]
      omega
    simp [MemoryCache.get, hl, hexp]
  · intro hgt
    have hexp : (CacheEntry.mk v t0 T 0 t0).isExpired t1 = true := by
      simp only [CacheEntry.isExpired, decide_eq_true_eq]
      omega
    have hstore : MemoryCache.getCache
        (MemoryCache.get t1 key proj (MemoryCache.set t0 key v (some T) proj st).2).2 proj
        = eraseKey key (MemoryCache.getCache
            (MemoryCache.set t0 key v (some T) proj st).2 proj) := by
      simp only [MemoryCache.get, hl, hexp, if_true]
      rw [getCache_putCache_same _ _ _ _ rfl]
    refine ⟨?_, ?_, ?_, ?_⟩
    · simp [MemoryCache.get, hl, hexp]
    · rw [hstore]
      exact lookupKey_eraseKey_self _ _
    · intro t2
      have h2 : lookupKey key (MemoryCache.getCache
          (MemoryCache.get t1 key proj
            (MemoryCache.set t0 key v (some T) proj st).2).2 proj) = none := by
        rw [hstore]; exact lookupKey_eraseKey_self _ _
      rw [get_of_lookup_none t2 key proj _ h2]
    · intro t2
      simp only [MemoryCache.getStats, hstore, set_store_shape]
      rw [eraseKey_idem_append]
      simp

theorem c2_ttl_boundary_witness :
    (MemoryCache.get 5 "k" none
      (MemoryCache.set 0 "k" "v" (some 10) none (initCache 5 3600 : CacheState String)).2).1
      = some "v" :=
  (c2_ttl_boundary (initCache 5 3600) 0 5 "k" "v" 10 none (by decide)).1 (by decide)

/-! ### Claim C8 -/

/-- C8 counterexample: the empty string is a tenant identifier distinct
from the tenant-less scope, yet a Set performed under tenant "" lands in
the tenant-less global store: before the Set the tenant-less Get of "k"
misses, after it it returns the value, so the tenant-less scope's
observable contents were changed by another scope's Set. -/
theorem c8_counterexample :
    (MemoryCache.get 1 "k" none (initCache 10 3600 : CacheState String)).1 = none ∧
    (MemoryCache.get 1 "k" none
      (MemoryCache.set 0 "k" "v" none (some "") (initCache 10 3600)).2).1 = some "v" := by
  decide

/-- C8 (amended): tenant isolation holds up to truthiness normalisation of
the tenant identifier (the empty-string tenant aliases the tenant-less
scope): any `set`, `get` or `clear` whose normalised scope differs from a
second scope leaves that second scope's store — hence its observable
contents — unchanged; and `clear_all_projects` empties every truthy
tenant's store while leaving the tenant-less global store untouched. -/
theorem c8_tenant_isolation (st : CacheState α) :
    (∀ (op : CacheOp α) (proj2 : Option String),
      (match op with
        | .set _ _ _ _ proj1 => scopeOf proj2 ≠ scopeOf proj1
        | .get _ _ proj1 => scopeOf proj2 ≠ scopeOf proj1
        | .clear proj1 => scopeOf proj2 ≠ scopeOf proj1) →
      MemoryCache.getCache (op.apply st) proj2 = MemoryCache.getCache st proj2) ∧
    (∀ p : String, p ≠ "" →
      MemoryCache.getCache (MemoryCache.clearAllProjects st) (some p) = []) ∧
    MemoryCache.getCache (MemoryCache.clearAllProjects st) none = st.cache := by
  refine ⟨?_, ?_, rfl⟩
  · intro op proj2 hne
    cases op with
    | set now key data ttl proj1 =>
      show MemoryCache.getCache (MemoryCache.set now key data ttl proj1 st).2 proj2 = _
      unfold MemoryCache.set
      exact getCache_putCache_other _ _ _ _ hne
    | get now key proj1 =>
      show MemoryCache.getCache (MemoryCache.get now key proj1 st).2 proj2 = _
      unfold MemoryCache.get
      cases hl : lookupKey key (MemoryCache.getCache st proj1) with
      | none => simp [hl]
      | some e =>
        simp only [hl]
        by_cases he : e.isExpired now <;>
          simp only [he, if_true, if_false, Bool.false_eq_true] <;>
          exact getCache_putCache_other _ _ _ _ hne
    | clear proj1 =>
      show MemoryCache.getCache (MemoryCache.clear proj1 st) proj2 = _
      cases proj1 with
      | none =>
        cases proj2 with
        | none => simp [scopeOf] at hne
        | some q =>
          by_cases hq : q = ""
          · simp [scopeOf, hq] at hne
          · simp [MemoryCache.clear, MemoryCache.getCache, hq]
      | some p =>
        by_cases hp : p = ""
        · cases proj2 with
          | none => simp [scopeOf, hp] at hne
          | some q =>
            by_cases hq : q = ""
            · simp [scopeOf, hp, hq] at hne
            · simp [MemoryCache.clear, MemoryCache.getCache, hp, hq]
        · cases proj2 with
          | none => simp [MemoryCache.clear, MemoryCache.getCache, hp]
          | some q =>
            by_cases hq : q = ""
            · simp [MemoryCache.clear, MemoryCache.getCache, hp, hq]
            · have hqp : q ≠ p := by
                intro hh
                exact hne (by simp [scopeOf, hp, hq, hh])
              simp [MemoryCache.clear, MemoryCache.getCache, hp, hq, hqp]
  · intro p hp
    simp [MemoryCache.clearAllProjects, MemoryCache.getCache, hp]

theorem c8_tenant_isolation_witness :
    MemoryCache.getCache
      ((CacheOp.set 0 "k" "v" none (some "t1")).apply (initCache 10 3600 : CacheState String))
      (some "t2")
      = MemoryCache.getCache (initCache 10 3600 : CacheState String) (some "t2") :=
  (c8_tenant_isolation (initCache 10 3600)).1
    (CacheOp.set 0 "k" "v" none (some "t1")) (some "t2") (by decide)

theorem track_patterns_length (hash : String → String) (now : ℚ) (op coll : String)
    (q : Option String) (st : SwarmState) :
    ((SwarmTracker.trackOperation hash now op coll q st).2.operationPatterns coll).length
      = (st.operationPatterns coll).length + 1 := by
  unfold SwarmTracker.trackOperation
  dsimp only
  cases h1 : lookupKey (SwarmTracker.generateTrailId hash op coll (SwarmTracker.queryOr q))
      st.trails with
  | none =>
    simp only [h1]
    split <;> split <;> simp_all
  | some tr0 => simp [h1]

theorem trackRepeat_length (hash : String → String) (op coll : String) (n : ℕ)
    (st : SwarmState) :
    ((trackRepeat hash op coll n st).operationPatterns coll).length
      = (st.operationPatterns coll).length + n := by
  induction n with
  | zero => rfl
  | succ m ih =>
    simp only [trackRepeat, track_patterns_length, ih]
    omega

/-! ### Claim C9 -/

/-- C9 counterexample: the stored per-collection operation log is not
bounded by any fixed constant — after N track calls it holds exactly N
records, so any candidate bound B is exceeded by the run of length B + 1. -/
theorem c9_counterexample :
    ¬ ∃ B : ℕ, ∀ n : ℕ,
      ((trackRepeat id "query" "c" n (initSwarm 0)).operationPatterns "c").length ≤ B := by
  intro h
  obtain ⟨B, hB⟩ := h
  have h1 := hB (B + 1)
  rw [trackRepeat_length] at h1
  simp [initSwarm] at h1

/-- C9 (amended): each track call appends one record to the stored
per-collection log, which therefore grows without bound; the most-recent
window exists only on the read side — `get_collection_patterns` returns
exactly the last 10 stored records (hence at most 10) and computes its
recent-activity count over at most the last 100. -/
theorem c9_log_window (hash : String → String) (now : ℚ) (op coll : String)
    (q : Option String) (st : SwarmState) :
    ((SwarmTracker.trackOperation hash now op coll q st).2.operationPatterns coll).length
      = (st.operationPatterns coll).length + 1 ∧
    (SwarmTracker.getCollectionPatterns now coll st).patterns
      = (st.operationPatterns coll).drop ((st.operationPatterns coll).length - 10) ∧
    (SwarmTracker.getCollectionPatterns now coll st).patterns.length ≤ 10 ∧
    (SwarmTracker.getCollectionPatterns now coll st).recentOperations ≤ 100 := by
  refine ⟨track_patterns_length hash now op coll q st, ?_, ?_, ?_⟩
  · by_cases he : (st.operationPatterns coll).isEmpty
    · rw [List.isEmpty_iff] at he
      simp [SwarmTracker.getCollectionPatterns, he]
    · simp [SwarmTracker.getCollectionPatterns, he]
  · by_cases he : (st.operationPatterns coll).isEmpty
    · simp [SwarmTracker.getCollectionPatterns, he]
    · simp only [SwarmTracker.getCollectionPatterns, he, Bool.false_eq_true, if_false,
        List.length_drop]
      omega
  · by_cases he : (st.operationPatterns coll).isEmpty
    · simp [SwarmTracker.getCollectionPatterns, he]
    · simp only [SwarmTracker.getCollectionPatterns, he, Bool.false_eq_true, if_false]
      have := List.length_filter_le
        (fun p => decide (now - p.timestamp < 3600))
        ((st.operationPatterns coll).drop ((st.operationPatterns coll).length - 100))
      rw [List.length_drop] at this
      omega

theorem bfsLoop_nil_queue (st : MapperState) (tgt : String) (d : ℤ) (visited : List String) :
    ∀ fuel : ℕ, Mapper.bfsLoop st tgt d fuel visited [] = none := by
  intro fuel
  cases fuel <;> rfl

theorem chain_bfs_step1 (d : ℤ) (h0 : ¬ d ≤ (0 : ℤ)) (fuel : ℕ) :
    Mapper.bfsLoop chainGraph "C" d (fuel + 1) [] [("A", [])]
      = Mapper.bfsLoop chainGraph "C" d fuel ["A"] [("B", [("A", "r1")])] := by
  simp only [Mapper.bfsLoop, List.length_nil, Nat.cast_zero]
  rw [if_neg h0]
  rfl

theorem chain_bfs_step2 (d : ℤ) (h1 : ¬ d ≤ (1 : ℤ)) (fuel : ℕ) :
    Mapper.bfsLoop chainGraph "C" d (fuel + 1) ["A"] [("B", [("A", "r1")])]
      = some [("A", "r1"), ("B", "r2"), ("C", "")] := by
  simp only [Mapper.bfsLoop, List.length_cons, List.length_nil, Nat.cast_one, Nat.cast_zero,
    zero_add]
  rw [if_neg h1]
  rfl

theorem chain_bfs_step2_depth1 (fuel : ℕ) :
    Mapper.bfsLoop chainGraph "C" 1 (fuel + 1) ["A"] [("B", [("A", "r1")])]
      = Mapper.bfsLoop chainGraph "C" 1 fuel ["A"] [] := by
  simp only [Mapper.bfsLoop, List.length_cons, List.length_nil, Nat.cast_one, Nat.cast_zero,
    zero_add]
  rw [if_pos le_rfl]

/-! ### Claim C4 -/

/-- C4: on the chain graph A -r1-> B -r2-> C with no other edges,
`find_path(A, C, d)` for every d ≥ 2 returns the 2-hop path through B,
`find_path(A, C, 1)` returns none, `find_path(A, A, d)` returns the empty
path for every d, and `find_path` returns none on any state whenever
either endpoint is missing from the entity dict. -/
theorem c4_find_path :
    (∀ d : ℤ, 2 ≤ d → Mapper.findPath "A" "C" d chainGraph
        = some [("A", "r1"), ("B", "r2"), ("C", "")]) ∧
    Mapper.findPath "A" "C" 1 chainGraph = none ∧
    (∀ d : ℤ, Mapper.findPath "A" "A" d chainGraph = some []) ∧
    (∀ (st : MapperState) (s t : String) (d : ℤ),
      (lookupKey s st.entities = none ∨ lookupKey t st.entities = none) →
      Mapper.findPath s t d st = none) := by
  refine ⟨?_, ?_, ?_, ?_⟩
  · intro d hd
    unfold Mapper.findPath
    rw [if_neg (by decide), if_neg (by decide)]
    rw [show chainGraph.entities.length * (chainGraph.relationships.length + 1) + 1
        = 10 from rfl]
    rw [show (10 : ℕ) = 9 + 1 from rfl, chain_bfs_step1 d (by omega) 9]
    rw [show (9 : ℕ) = 8 + 1 from rfl, chain_bfs_step2 d (by omega) 8]
  · unfold Mapper.findPath
    rw [if_neg (by decide), if_neg (by decide)]
    rw [show chainGraph.entities.length * (chainGraph.relationships.length + 1) + 1
        = 10 from rfl]
    rw [show (10 : ℕ) = 9 + 1 from rfl, chain_bfs_step1 1 (by omega) 9]
    rw [show (9 : ℕ) = 8 + 1 from rfl, chain_bfs_step2_depth1 8]
    exact bfsLoop_nil_queue chainGraph "C" 1 ["A"] 8
  · intro d
    unfold Mapper.findPath
    rw [if_neg (by decide), if_pos rfl]
  · intro st s t d h
    rcases h with h | h <;> simp [Mapper.findPath, h]

theorem c4_find_path_witness :
    Mapper.findPath "A" "C" 5 chainGraph = some [("A", "r1"), ("B", "r2"), ("C", "")] :=
  c4_find_path.1 5 (by decide)

theorem sorted_keyed_perm_eq {β : Type} : ∀ {l1 l2 : List (String × β)},
    l1.Perm l2 → l1.Sorted (fun a b => a.1 ≤ b.1) → l2.Sorted (fun a b => a.1 ≤ b.1) →
    (l1.map Prod.fst).Nodup → l1 = l2 := by
  intro l1
  induction l1 with
  | nil =>
    intro l2 hp _ _ _
    exact hp.nil_eq
  | cons a t ih =>
    intro l2 hp hs1 hs2 hn
    cases l2 with
    | nil =>
      have := hp.eq_nil
      simp at this
    | cons b t2 =>
      have hab : a ∈ b :: t2 := hp.mem_iff.mp (List.mem_cons_self a t)
      have hba : b ∈ a :: t := hp.symm.mem_iff.mp (List.mem_cons_self b t2)
      have h1 : a.1 ≤ b.1 := by
        rcases List.mem_cons.mp hba with h | h
        · rw [h]
        · exact (List.sorted_cons.mp hs1).1 b h
      have h2 : b.1 ≤ a.1 := by
        rcases List.mem_cons.mp hab with h | h
        · rw [h]
        · exact (List.sorted_cons.mp hs2).1 a h
      have hkey : a.1 = b.1 := le_antisymm h1 h2
      have hn' : a.1 ∉ t.map Prod.fst ∧ (t.map Prod.fst).Nodup := by
        rw [List.map_cons] at hn
        exact List.nodup_cons.mp hn
      have hbe : b = a := by
        rcases List.mem_cons.mp hba with h | h
        · exact h
        · exact absurd (hkey ▸ List.mem_map_of_mem Prod.fst h) hn'.1
      subst hbe
      rw [ih hp.cons_inv (List.sorted_cons.mp hs1).2 (List.sorted_cons.mp hs2).2 hn'.2]

theorem sortFields_perm (l1 l2 : List (String × Json)) (hp : l1.Perm l2)
    (hn : (l1.map Prod.fst).Nodup) : sortFields l1 = sortFields l2 := by
  apply sorted_keyed_perm_eq
  · exact (List.perm_insertionSort _ l1).trans (hp.trans (List.perm_insertionSort _ l2).symm)
  · exact List.sorted_insertionSort _ l1
  · exact List.sorted_insertionSort _ l2
  · exact (((List.perm_insertionSort _ l1).map Prod.fst).nodup_iff).mpr hn

theorem canonFields_eq_map (l : List (String × Json)) :
    Json.canonFields l = l.map (fun p => (p.1, Json.canon p.2)) := by
  induction l with
  | nil => rfl
  | cons p t ih =>
    obtain ⟨k, v⟩ := p
    simp [Json.canonFields, ih]

theorem set_get_hit (st : CacheState α) (t0 t1 : ℤ) (key : String) (v : α)
    (ttl : Option ℤ) (proj : Option String)
    (h : t1 - t0 ≤ MemoryCache.resolveTtl st ttl) :
    (MemoryCache.get t1 key proj (MemoryCache.set t0 key v ttl proj st).2).1 = some v := by
  have hl := lookupKey_after_set t0 key v ttl proj st
  have hexp : (CacheEntry.mk v t0 (MemoryCache.resolveTtl st ttl) 0 t0).isExpired t1
      = false := by
    simp only [CacheEntry.isExpired, decide_eq_false_iff_not, not_lt]
    omega
  simp [MemoryCache.get, hl, hexp]

/-! ### Claim C6 -/

/-- C6: the query-result key derivation is a pure function of semantic
content — permuting the field order of the dict fed to `_generate_key`
(with its keys distinct, as in a Python dict) leaves the derived key
unchanged — and `cache_query_result` followed by `get_query_result` with
the same query, collection and tenant returns the cached result whenever
the elapsed time is within the resolved TTL and no other call intervened. -/
theorem c6_query_key_roundtrip (hash : String → String) (st : CacheState α)
    (t0 t1 : ℤ) (q c : String) (r : α) (tenant : Option String) (ttl : Option ℤ)
    (h : t1 - t0 ≤ MemoryCache.resolveTtl st ttl) :
    (MemoryCache.getQueryResult hash t1 q c tenant
      (MemoryCache.cacheQueryResult hash t0 q r c tenant ttl st).2).1 = some r ∧
    (∀ l1 l2 : List (String × Json), l1.Perm l2 → (l1.map Prod.fst).Nodup →
      MemoryCache.generateKey hash (Json.obj l1)
        = MemoryCache.generateKey hash (Json.obj l2)) := by
  constructor
  · exact set_get_hit st t0 t1 _ r ttl tenant h
  · intro l1 l2 hp hn
    unfold MemoryCache.generateKey
    congr 2
    show Json.obj (sortFields (Json.canonFields l1))
        = Json.obj (sortFields (Json.canonFields l2))
    rw [canonFields_eq_map, canonFields_eq_map]
    congr 1
    apply sortFields_perm _ _ (hp.map _)
    simpa using hn

theorem c6_query_key_roundtrip_witness :
    (MemoryCache.getQueryResult id 1 "q" "coll" none
      (MemoryCache.cacheQueryResult id 0 "q" "res" "coll" none none
        (initCache 5 3600 : CacheState String)).2).1 = some "res" :=
  (c6_query_key_roundtrip id (initCache 5 3600) 0 1 "q" "coll" "res" none none
    (by decide)).1

/-! ### Claim C7 -/

/-- C7: `get_hot_trails` first evaporates every tracked trail in place —
the new strength is `max 0 (strength - rate * (now - last_update) / 60)`
and `last_update` becomes `now`, which never increases the strength when
the rate, the stored strength and the elapsed time are nonnegative — and
then returns summaries carrying id, strength, access count and stored
metadata of exactly the trails with strength ≥ min_strength: every
returned summary meets the threshold and corresponds to an evaporated
trail, the list is sorted descending by strength, and its length is the
number of qualifying trails truncated to at most `limit`. -/
theorem c7_hot_trails (now minStrength : ℚ) (limit : ℕ) (st : SwarmState) :
    (SwarmTracker.getHotTrails now minStrength limit st).2.trails
      = st.trails.map (fun p => (p.1,
          { p.2 with
            strength := max 0 (p.2.strength - st.evaporationRate * (now - p.2.lastUpdate) / 60)
            lastUpdate := now })) ∧
    (0 ≤ st.evaporationRate →
      ∀ p ∈ st.trails, 0 ≤ p.2.strength → p.2.lastUpdate ≤ now →
        (p.2.evaporate now st.evaporationRate).strength ≤ p.2.strength) ∧
    (∀ x ∈ (SwarmTracker.getHotTrails now minStrength limit st).1,
      minStrength ≤ x.strength) ∧
    List.Sorted (fun a b => b.strength ≤ a.strength)
      (SwarmTracker.getHotTrails now minStrength limit st).1 ∧
    (SwarmTracker.getHotTrails now minStrength limit st).1.length
      = min limit (((SwarmTracker.getHotTrails now minStrength limit st).2.trails.map
          (fun p => p.2)).filter (fun t => decide (minStrength ≤ t.strength))).length ∧
    (∀ x ∈ (SwarmTracker.getHotTrails now minStrength limit st).1,
      ∃ p ∈ (SwarmTracker.getHotTrails now minStrength limit st).2.trails,
        x.trailId = p.2.trailId ∧ x.strength = p.2.strength ∧
        x.accessCount = p.2.accessCount ∧ x.metadata = p.2.metadata) := by
  have hrep : (SwarmTracker.getHotTrails now minStrength limit st).1
      = (List.insertionSort (fun a b => b.strength ≤ a.strength)
          ((((st.trails.map (fun p => (p.1, p.2.evaporate now st.evaporationRate))).map
            (fun p => p.2)).filter (fun t => decide (minStrength ≤ t.strength))).map
            (fun t => SwarmTracker.TrailSummary.mk t.trailId t.strength t.accessCount
              t.metadata))).take limit := rfl
  refine ⟨rfl, ?_, ?_, ?_, ?_, ?_⟩
  · intro hrate p _ hs hlu
    have he : 0 ≤ st.evaporationRate * (now - p.2.lastUpdate) / 60 :=
      div_nonneg (mul_nonneg hrate (by linarith)) (by norm_num)
    simp only [PheromoneTrail.evaporate]
    apply max_le hs
    linarith
  · intro x hx
    rw [hrep] at hx
    have hx2 := (List.perm_insertionSort _ _).mem_iff.mp (List.take_subset _ _ hx)
    obtain ⟨t, ht, hxt⟩ := List.mem_map.mp hx2
    obtain ⟨-, htpred⟩ := List.mem_filter.mp ht
    rw [← hxt]
    exact of_decide_eq_true htpred
  · rw [hrep]
    exact List.Pairwise.sublist (List.take_sublist _ _) (List.sorted_insertionSort _ _)
  · rw [hrep, List.length_take]
    congr 1
    rw [(List.perm_insertionSort _ _).length_eq, List.length_map]
    rfl
  · intro x hx
    rw [hrep] at hx
    have hx2 := (List.perm_insertionSort _ _).mem_iff.mp (List.take_subset _ _ hx)
    obtain ⟨t, ht, hxt⟩ := List.mem_map.mp hx2
    obtain ⟨htmem, -⟩ := List.mem_filter.mp ht
    obtain ⟨p, hp, hpt⟩ := List.mem_map.mp htmem
    refine ⟨p, hp, ?_⟩
    rw [← hxt, hpt]
    exact ⟨rfl, rfl, rfl, rfl⟩

theorem c7_hot_trails_witness :
    (SwarmTracker.getHotTrails 60 0 10 oneTrailSwarm).2.trails
      = oneTrailSwarm.trails.map (fun p => (p.1,
          { p.2 with
            strength := max 0 (p.2.strength - oneTrailSwarm.evaporationRate
              * ((60 : ℚ) - p.2.lastUpdate) / 60)
            lastUpdate := (60 : ℚ) })) :=
  (c7_hot_trails 60 0 10 oneTrailSwarm).1
